import Mathlib

/-!
Verification of the STON.fi trading-pair pipeline (src/api/pairs.js and the
duplicated server implementation). The pipeline is embedded shallowly:

* JavaScript decimal-string fields are modelled as `Option ℚ`: `none` stands
  for an absent field or an empty string (both falsy, both parsed as the
  default), `some q` for a decimal string with value `q`. Non-numeric
  garbage strings (`parseFloat` returning `NaN`) are outside the model.
* String-valued fields that the code tests for truthiness are `Option String`,
  with `none` (absent) and `some ""` both falsy.
* `Array.prototype.sort` is stable (ES2019); for a consistent comparator any
  stable sort produces the same list, modelled here by a stable insertion
  sort driven by the exact comparator from the source.
* `localeCompare` is modelled as three-way comparison in the lexicographic
  order on strings.
-/

namespace StonFi

/-- Truthiness of an optional string field, as in JavaScript: an absent field
(`none`) and the empty string are falsy, every other string is truthy. -/
def strTruthy : Option String → Bool
  | none => false
  | some s => !(s == "")

/-- JavaScript `x || default` for a string field: absent or empty falls back to the
default. -/
def jsStrOr : Option String → String → String
  | none, d => d
  | some s, d => if s == "" then d else s

/-- Value of a numeric field read as `parseFloat(x || '0')`: absent or empty
gives 0, otherwise the parsed value. -/
def qval : Option ℚ → ℚ
  | none => 0
  | some q => q

/-- JavaScript `parseInt(token.decimals || '9')`: an absent field or the (falsy) number 0
both yield 9. -/
def jsDecimals : Option ℤ → ℤ
  | none => 9
  | some d => if d = 0 then 9 else d

/-- Lower-casing, as `String.prototype.toLowerCase` on the code points the
repository's data uses. -/
def lowerStr (s : String) : String :=
  String.mk (s.data.map Char.toLower)

/-- Whether `xs` is a prefix of `ys` (Boolean). -/
def listIsPre : List Char → List Char → Bool
  | [], _ => true
  | _ :: _, [] => false
  | a :: as, b :: bs => a == b && listIsPre as bs

/-- Whether `needle` occurs as a contiguous run inside `hay` (Boolean). -/
def listContains (needle : List Char) : List Char → Bool
  | [] => listIsPre needle []
  | c :: rest => listIsPre needle (c :: rest) || listContains needle rest

/-- JavaScript `hay.includes(needle)`. -/
def jsIncludes (hay needle : String) : Bool :=
  listContains needle.data hay.data

/-- Numeric value of a digit run. -/
def digitsVal (cs : List Char) : ℕ :=
  cs.foldl (fun acc c => acc * 10 + (c.toNat - 48)) 0

/-- Leading decimal-digit run of a character list, `none` if there is none. -/
def parseDigits (cs : List Char) : Option ℕ :=
  let ds := cs.takeWhile (fun c => c.isDigit)
  if ds.isEmpty then none else some (digitsVal ds)

/-- JavaScript `parseInt` in base 10: optional sign, then a leading digit run;
trailing non-digits are ignored; `none` models `NaN`. -/
def parseIntJs (s : String) : Option ℤ :=
  match s.data.dropWhile (fun c => c == ' ') with
  | '-' :: rest => (parseDigits rest).map (fun n => -(n : ℤ))
  | '+' :: rest => (parseDigits rest).map (fun n => (n : ℤ))
  | cs => (parseDigits cs).map (fun n => (n : ℤ))

/-- Unsigned decimal number: digit run, optional point and fractional run. -/
def parseUnsignedFloat (cs : List Char) : Option ℚ :=
  let intPart := cs.takeWhile (fun c => c.isDigit)
  let rest := cs.dropWhile (fun c => c.isDigit)
  match rest with
  | '.' :: rest2 =>
      let fracPart := rest2.takeWhile (fun c => c.isDigit)
      if intPart.isEmpty && fracPart.isEmpty then none
      else some ((digitsVal intPart : ℚ) +
        (digitsVal fracPart : ℚ) / (10 : ℚ) ^ fracPart.length)
  | _ => if intPart.isEmpty then none else some ((digitsVal intPart : ℚ))

/-- JavaScript `parseFloat` (plain decimal notation): optional sign then an
unsigned decimal; `none` models `NaN`. -/
def parseFloatJs (s : String) : Option ℚ :=
  match s.data.dropWhile (fun c => c == ' ') with
  | '-' :: rest => (parseUnsignedFloat rest).map (fun q => -q)
  | '+' :: rest => parseUnsignedFloat rest
  | cs => parseUnsignedFloat cs

/-- JavaScript `parseInt(x) || d`: `NaN` (`none`) and a parsed 0 both fall back to the
default, every other value passes through. -/
def jsOrInt : Option ℤ → ℤ → ℤ
  | none, d => d
  | some v, d => if v = 0 then d else v

/-- JavaScript `parseFloat(x) || d`, same falsiness rule as `jsOrInt`. -/
def jsOrQ : Option ℚ → ℚ → ℚ
  | none, d => d
  | some v, d => if v = 0 then d else v

/-- JavaScript `Math.ceil` on an exact rational. -/
def qCeil (q : ℚ) : ℤ :=
  -Rat.floor (-q)

/-- Decimal digits of `n`, left-padded with zeros to width `d`. -/
def natPad (n d : ℕ) : String :=
  let s := toString n
  String.mk (List.replicate (d - s.length) '0') ++ s

/-- JavaScript `Number.prototype.toFixed(d)` on an exact rational: round to
`d` fractional digits, ties toward positive infinity. -/
def toFixedQ (q : ℚ) (d : ℕ) : String :=
  let m : ℤ := Rat.floor (q * (10 : ℚ) ^ d + 1 / 2)
  let sign := if m < 0 then "-" else ""
  let a : ℕ := m.natAbs
  if d = 0 then sign ++ toString a
  else sign ++ toString (a / 10 ^ d) ++ "." ++ natPad (a % 10 ^ d) d

/-- Floor of the base-10 logarithm of a positive rational (unspecified on
nonpositive input). -/
def qDecade (q : ℚ) : ℤ :=
  let e0 : ℤ := (Nat.log 10 q.num.natAbs : ℤ) - (Nat.log 10 q.den : ℤ)
  if q < (10 : ℚ) ^ e0 then e0 - 1 else e0

/-- JavaScript `Number.prototype.toExponential(d)` on an exact rational. -/
def toExponentialQ (q : ℚ) (d : ℕ) : String :=
  if q = 0 then toFixedQ 0 d ++ "e+0"
  else
    let sign := if q < 0 then "-" else ""
    let a := |q|
    let e := qDecade a
    let mant := toFixedQ (a / (10 : ℚ) ^ e) d
    sign ++ mant ++ (if e < 0 then "e-" ++ toString e.natAbs else "e+" ++ toString e.natAbs)

/-- Function `formatPrice` from src/api/pairs.js lines 6-13 (identical in the server
shell): magnitude-dependent display precision. -/
def formatPrice (price : ℚ) : String :=
  if price = 0 then "0.00"
  else if price < 1 / 1000000 then toExponentialQ price 2
  else if price < 1 / 100 then toFixedQ price 6
  else if price < 1 then toFixedQ price 4
  else if price < 100 then toFixedQ price 2
  else toFixedQ price 0

/-- Asset record from the upstream assets dataset (the fields the pipeline
reads). -/
structure Asset where
  contractAddress : Option String
  symbol : String
  displayName : Option String
  decimals : Option ℤ
  dexUsdPrice : Option ℚ
deriving DecidableEq

/-- Pool record from the upstream pools dataset (the fields the pipeline
reads). -/
structure Pool where
  address : Option String
  token0Address : Option String
  token1Address : Option String
  reserve0 : Option ℚ
  reserve1 : Option ℚ
  lpTotalSupplyUsd : Option ℚ
  lpTotalSupply : Option ℚ
  volume24hUsd : Option ℚ
  apy1D : Option ℚ
  popularityIndex : Option ℚ
deriving DecidableEq

/-- Per-token summary embedded in a derived pair. -/
structure TokenInfo where
  symbol : String
  name : String
  address : Option String
  decimals : Option ℤ
  usdPrice : ℚ
deriving DecidableEq

/-- Reserve pair embedded in a derived pair. -/
structure PairReserves where
  token0 : ℚ
  token1 : ℚ
deriving DecidableEq

/-- Derived trading pair (the record pushed by `calculateTradingPairs`). -/
structure TradingPair where
  id : String
  name : String
  token0 : TokenInfo
  token1 : TokenInfo
  price : ℚ
  formattedPrice : String
  liquidity : ℚ
  volume24h : ℚ
  apy : ℚ
  poolAddress : String
  reserves : PairReserves
  popularityIndex : ℚ
deriving DecidableEq

/-- The asset map of `calculateTradingPairs` lines 21-26: keyed by
`contractAddress`, entries with a falsy address are skipped, a later entry
overwrites an earlier one with the same key. `lookupAsset assets key` is
`assetMap[key]`. -/
def lookupAsset (assets : List Asset) (key : String) : Option Asset :=
  match assets with
  | [] => none
  | a :: rest =>
    let later := lookupAsset rest key
    if later.isSome then later
    else if strTruthy a.contractAddress && (a.contractAddress == some key) then some a
    else none

/-- Body of the `pools.forEach` loop of `calculateTradingPairs` lines 32-98:
the pair pushed for the given pool, or `none` when the pool is skipped
(falsy pool/token address, or an unresolved token). -/
def mkTradingPair (assets : List Asset) (pool : Pool) : Option TradingPair :=
  if strTruthy pool.token0Address && strTruthy pool.token1Address && strTruthy pool.address then
    match lookupAsset assets (pool.token0Address.getD ""),
          lookupAsset assets (pool.token1Address.getD "") with
    | some token0, some token1 =>
      let token0Reserve := qval pool.reserve0
      let token1Reserve := qval pool.reserve1
      let token0UsdPrice := qval token0.dexUsdPrice
      let token1UsdPrice := qval token1.dexUsdPrice
      let price : ℚ :=
        if 0 < token0UsdPrice ∧ 0 < token1UsdPrice then
          token1UsdPrice / token0UsdPrice
        else if 0 < token0Reserve then
          token1Reserve / token0Reserve *
            (10 : ℚ) ^ (jsDecimals token0.decimals - jsDecimals token1.decimals)
        else 0
      some {
        id := pool.address.getD ""
        name := token0.symbol ++ "/" ++ token1.symbol
        token0 := {
          symbol := token0.symbol
          name := jsStrOr token0.displayName token0.symbol
          address := token0.contractAddress
          decimals := token0.decimals
          usdPrice := token0UsdPrice }
        token1 := {
          symbol := token1.symbol
          name := jsStrOr token1.displayName token1.symbol
          address := token1.contractAddress
          decimals := token1.decimals
          usdPrice := token1UsdPrice }
        price := price
        formattedPrice := formatPrice price
        liquidity := qval (pool.lpTotalSupplyUsd.or pool.lpTotalSupply)
        volume24h := qval pool.volume24hUsd
        apy := qval pool.apy1D
        poolAddress := pool.address.getD ""
        reserves := { token0 := token0Reserve, token1 := token1Reserve }
        popularityIndex := qval pool.popularityIndex }
    | _, _ => none
  else none

section StableSort

variable {α : Type*}

/-- Insert `x` into `l` before the first element `y` with `cmp x y ≤ 0`
(the stable position for an element that precedes `l`'s elements in the
input). -/
def jsOrderedInsert (cmp : α → α → ℚ) (x : α) : List α → List α
  | [] => [x]
  | y :: l => if cmp x y ≤ 0 then x :: y :: l else y :: jsOrderedInsert cmp x l

/-- Stable sort by a JavaScript three-way comparator. `Array.prototype.sort`
is stable and, for a consistent comparator, every stable sort computes the
same list; the model uses stable insertion sort. -/
def jsSort (cmp : α → α → ℚ) : List α → List α
  | [] => []
  | x :: l => jsOrderedInsert cmp x (jsSort cmp l)

end StableSort

/-- Comparator of the final sort of `calculateTradingPairs` lines 103-108:
liquidity descending, then popularityIndex descending. -/
def canonCmp (a b : TradingPair) : ℚ :=
  if b.liquidity ≠ a.liquidity then b.liquidity - a.liquidity
  else b.popularityIndex - a.popularityIndex

/-- Function `calculateTradingPairs` from src/api/pairs.js lines 16-109: build the
asset map, join each pool with its two resolved assets, then sort. -/
def calculateTradingPairs (assets : List Asset) (pools : List Pool) : List TradingPair :=
  jsSort canonCmp (pools.filterMap (mkTradingPair assets))

/-- The filter record handed to `filterAndSortPairs`. -/
structure Filters where
  search : String
  sortBy : String
  sortOrder : String
  minLiquidity : ℚ
  category : String
deriving DecidableEq

/-- Search predicate of `filterAndSortPairs` lines 116-126; `searchTerm` is
already lower-cased by the caller. -/
def searchMatches (searchTerm : String) (pair : TradingPair) : Bool :=
  jsIncludes (lowerStr pair.name) searchTerm ||
  jsIncludes (lowerStr pair.token0.symbol) searchTerm ||
  jsIncludes (lowerStr pair.token1.symbol) searchTerm ||
  jsIncludes (lowerStr pair.token0.name) searchTerm ||
  jsIncludes (lowerStr pair.token1.name) searchTerm ||
  jsIncludes (lowerStr pair.poolAddress) searchTerm

/-- Category predicate of `filterAndSortPairs` lines 135-178: the literal
keyword tests of the `switch`, on the joined lower-cased symbols and joined
lower-cased token names; any unrecognized category matches everything. -/
def categoryMatches (category : String) (pair : TradingPair) : Bool :=
  let symbols := lowerStr (pair.token0.symbol ++ pair.token1.symbol)
  let names := lowerStr (pair.token0.name ++ pair.token1.name)
  match category with
  | "stablecoins" =>
      jsIncludes symbols "usdt" || jsIncludes symbols "usd" || jsIncludes symbols "usdc" ||
      jsIncludes symbols "dai" || jsIncludes symbols "busd" || jsIncludes symbols "tusd" ||
      jsIncludes names "tether" || jsIncludes names "usd coin"
  | "meme" =>
      jsIncludes symbols "not" || jsIncludes symbols "notcoin" ||
      jsIncludes symbols "hmstr" || jsIncludes symbols "hamster" ||
      jsIncludes symbols "dogs" || jsIncludes symbols "dog" ||
      jsIncludes symbols "fish" || jsIncludes symbols "tpet" ||
      jsIncludes symbols "doge" || jsIncludes symbols "shib" ||
      jsIncludes symbols "pepe" || jsIncludes symbols "wojak" ||
      jsIncludes symbols "cat" || jsIncludes symbols "duck" ||
      jsIncludes symbols "frog" || jsIncludes symbols "bear" ||
      jsIncludes symbols "meme" || jsIncludes symbols "moon" ||
      jsIncludes symbols "inu" || jsIncludes symbols "floki" ||
      jsIncludes symbols "elon" || jsIncludes symbols "baby" ||
      jsIncludes symbols "safe" || jsIncludes symbols "rocket" ||
      jsIncludes names "meme" || jsIncludes names "dog" ||
      jsIncludes names "cat" || jsIncludes names "fish" ||
      jsIncludes names "hamster" || jsIncludes names "notcoin"
  | "defi" =>
      jsIncludes symbols "ton" || jsIncludes symbols "ston" ||
      jsIncludes symbols "hton" || jsIncludes symbols "tston" ||
      jsIncludes symbols "uni" || jsIncludes symbols "cake" ||
      jsIncludes symbols "aave" || jsIncludes symbols "comp" ||
      jsIncludes symbols "curve" || jsIncludes symbols "bal" ||
      jsIncludes symbols "sushi" || jsIncludes symbols "1inch" ||
      jsIncludes symbols "dedust" || jsIncludes symbols "storm" ||
      jsIncludes symbols "lp" || jsIncludes symbols "pool" ||
      jsIncludes names "defi" || jsIncludes names "staked" ||
      jsIncludes names "liquid" || jsIncludes names "vault"
  | _ => true

/-- JavaScript `a.localeCompare(b)` modelled as lexicographic three-way comparison. -/
def strCmpQ (a b : String) : ℚ :=
  if a < b then -1 else if b < a then 1 else 0

/-- The `comparison` value computed by the sort of `filterAndSortPairs` lines 182-203
before the order flip: one comparator per `sortBy` key, defaulting to
liquidity. -/
def jsCmp (sortBy : String) (a b : TradingPair) : ℚ :=
  if sortBy = "liquidity" then b.liquidity - a.liquidity
  else if sortBy = "volume" then b.volume24h - a.volume24h
  else if sortBy = "apy" then b.apy - a.apy
  else if sortBy = "name" then strCmpQ a.name b.name
  else if sortBy = "price" then b.price - a.price
  else b.liquidity - a.liquidity

/-- The value returned by the sort callback, line 205: the comparison,
negated when `sortOrder === 'asc'`. -/
def sortCmp (f : Filters) (a b : TradingPair) : ℚ :=
  if f.sortOrder = "asc" then -(jsCmp f.sortBy a b) else jsCmp f.sortBy a b

/-- Search stage, lines 116-126. -/
def applySearch (f : Filters) (pairs : List TradingPair) : List TradingPair :=
  if f.search ≠ "" then pairs.filter (searchMatches (lowerStr f.search)) else pairs

/-- Liquidity-floor stage, lines 129-131. -/
def applyLiquidity (f : Filters) (pairs : List TradingPair) : List TradingPair :=
  if 0 < f.minLiquidity then pairs.filter (fun p => decide (f.minLiquidity ≤ p.liquidity))
  else pairs

/-- Category stage, lines 134-179. -/
def applyCategory (f : Filters) (pairs : List TradingPair) : List TradingPair :=
  if f.category ≠ "all" then pairs.filter (categoryMatches f.category) else pairs

/-- The three filter stages of `filterAndSortPairs`, in source order. -/
def applyFilters (f : Filters) (pairs : List TradingPair) : List TradingPair :=
  applyCategory f (applyLiquidity f (applySearch f pairs))

/-- Function `filterAndSortPairs` from src/api/pairs.js lines 112-209: search filter,
liquidity filter, category filter, then the comparator sort. -/
def filterAndSortPairs (pairs : List TradingPair) (f : Filters) : List TradingPair :=
  jsSort (sortCmp f) (applyFilters f pairs)

/-- Pagination metadata record, lines 222-231. -/
structure Pagination where
  currentPage : ℤ
  totalPages : ℤ
  totalItems : ℤ
  itemsPerPage : ℤ
  hasNextPage : Bool
  hasPrevPage : Bool
  startIndex : ℤ
  endIndex : ℤ
deriving DecidableEq

/-- Result of `paginateResults`: the page slice plus metadata. -/
structure PaginatedResult (α : Type*) where
  data : List α
  pagination : Pagination
deriving DecidableEq

/-- JavaScript `Array.prototype.slice(start, stop)` with integer arguments:
negative indices count from the end, everything is clamped to the array. -/
def jsSlice {α : Type*} (l : List α) (start stop : ℤ) : List α :=
  let n : ℤ := l.length
  let k := if start < 0 then max (n + start) 0 else min start n
  let fin := if stop < 0 then max (n + stop) 0 else min stop n
  (l.drop k.toNat).take (fin - k).toNat

/-- Function `paginateResults` from src/api/pairs.js lines 212-233. `Math.ceil` of the
float division is modelled by the exact rational ceiling; the JavaScript
`Infinity` produced when `limit = 0` is not representable, so the model is
meaningful only for nonzero `limit` (every claim uses `limit ≥ 1`). -/
def paginateResults {α : Type*} (data : List α) (page limit : ℤ) : PaginatedResult α :=
  let totalItems : ℤ := data.length
  let totalPages : ℤ := qCeil ((totalItems : ℚ) / (limit : ℚ))
  let startIndex := (page - 1) * limit
  let endIndex := startIndex + limit
  { data := jsSlice data startIndex endIndex
    pagination := {
      currentPage := page
      totalPages := totalPages
      totalItems := totalItems
      itemsPerPage := limit
      hasNextPage := decide (page < totalPages)
      hasPrevPage := decide (1 < page)
      startIndex := startIndex + 1
      endIndex := min endIndex totalItems } }

/-- Raw query parameters of the GET /api/pairs request; `none` is an absent
parameter. -/
structure QueryParams where
  page : Option String
  limit : Option String
  search : Option String
  sortBy : Option String
  sortOrder : Option String
  minLiquidity : Option String
  category : Option String
deriving DecidableEq

/-- The JSON body assembled by the handler, lines 276-285 (the fields with
domain content; `cached`, `lastUpdated` and `priceDataFresh` carry no
pipeline data). -/
structure Response where
  success : Bool
  data : List TradingPair
  pagination : Pagination
  filters : Filters
  totalPairs : ℕ
deriving DecidableEq

/-- The GET /api/pairs handler, src/api/pairs.js lines 235-295, after the
upstream fetch: parameter parsing with defaults (lines 242-248), derivation,
filter + sort, pagination, response assembly. -/
def handler (assets : List Asset) (pools : List Pool) (q : QueryParams) : Response :=
  let page := jsOrInt (q.page.bind parseIntJs) 1
  let limit := jsOrInt (q.limit.bind parseIntJs) 50
  let search := jsStrOr q.search ""
  let sortBy := jsStrOr q.sortBy "liquidity"
  let sortOrder := jsStrOr q.sortOrder "desc"
  let minLiquidity := jsOrQ (q.minLiquidity.bind parseFloatJs) 0
  let category := jsStrOr q.category "all"
  let pairs := calculateTradingPairs assets pools
  let filters : Filters :=
    { search := search, sortBy := sortBy, sortOrder := sortOrder,
      minLiquidity := minLiquidity, category := category }
  let filteredPairs := filterAndSortPairs pairs filters
  let paginatedResult := paginateResults filteredPairs page limit
  { success := true
    data := paginatedResult.data
    pagination := paginatedResult.pagination
    filters := filters
    totalPairs := pairs.length }

/-- The glossary keyword set of each non-`all` category, as listed in the
spec's Glossary. -/
def specKeywords : String → List String
  | "stablecoins" => ["usdt", "usd", "usdc", "dai", "busd", "tusd", "tether", "usd coin"]
  | "meme" =>
      ["not", "notcoin", "hmstr", "hamster", "dogs", "dog", "fish", "tpet",
       "doge", "shib", "pepe", "wojak", "cat", "duck", "frog", "bear",
       "meme", "moon", "inu", "floki", "elon", "baby", "safe", "rocket"]
  | "defi" =>
      ["ton", "ston", "hton", "tston", "uni", "cake", "aave", "comp",
       "curve", "bal", "sushi", "1inch", "dedust", "storm", "lp", "pool",
       "defi", "staked", "liquid", "vault"]
  | _ => []

/-- Claim C1's reading of the classifier: every keyword of the category's
glossary set is tested against the symbols concatenation and against the
names concatenation. -/
def specCategoryMatches (category : String) (pair : TradingPair) : Bool :=
  let symbols := lowerStr (pair.token0.symbol ++ pair.token1.symbol)
  let names := lowerStr (pair.token0.name ++ pair.token1.name)
  (specKeywords category).any (fun k => jsIncludes symbols k || jsIncludes names k)

/-- The keywords the code tests against the symbols concatenation. -/
def symbolKeywords : String → List String
  | "stablecoins" => ["usdt", "usd", "usdc", "dai", "busd", "tusd"]
  | "meme" =>
      ["not", "notcoin", "hmstr", "hamster", "dogs", "dog", "fish", "tpet",
       "doge", "shib", "pepe", "wojak", "cat", "duck", "frog", "bear",
       "meme", "moon", "inu", "floki", "elon", "baby", "safe", "rocket"]
  | "defi" =>
      ["ton", "ston", "hton", "tston", "uni", "cake", "aave", "comp",
       "curve", "bal", "sushi", "1inch", "dedust", "storm", "lp", "pool"]
  | _ => []

/-- The keywords the code tests against the display-names concatenation. -/
def nameKeywords : String → List String
  | "stablecoins" => ["tether", "usd coin"]
  | "meme" => ["meme", "dog", "cat", "fish", "hamster", "notcoin"]
  | "defi" => ["defi", "staked", "liquid", "vault"]
  | _ => []

/-- Keyword-table form of the classifier: a symbol keyword found in the
symbols concatenation, or a name keyword found in the names concatenation. -/
def splitCategoryMatches (category : String) (pair : TradingPair) : Bool :=
  let symbols := lowerStr (pair.token0.symbol ++ pair.token1.symbol)
  let names := lowerStr (pair.token0.name ++ pair.token1.name)
  (symbolKeywords category).any (fun k => jsIncludes symbols k) ||
  (nameKeywords category).any (fun k => jsIncludes names k)

section StableSortLemmas

variable {α : Type*}

theorem jsOrderedInsert_perm (cmp : α → α → ℚ) (x : α) (l : List α) :
    (jsOrderedInsert cmp x l).Perm (x :: l) := by
  induction l with
  | nil => exact List.Perm.refl _
  | cons y t ih =>
    by_cases h : cmp x y ≤ 0
    · simp [jsOrderedInsert, h]
    · simp only [jsOrderedInsert, if_neg h]
      exact (ih.cons y).trans (List.Perm.swap x y t)

theorem jsSort_perm (cmp : α → α → ℚ) (l : List α) : (jsSort cmp l).Perm l := by
  induction l with
  | nil => exact List.Perm.refl _
  | cons x t ih =>
    exact (jsOrderedInsert_perm cmp x (jsSort cmp t)).trans (ih.cons x)

theorem jsOrderedInsert_pairwise (cmp : α → α → ℚ)
    (htot : ∀ a b, cmp a b ≤ 0 ∨ cmp b a ≤ 0)
    (htrans : ∀ a b c, cmp a b ≤ 0 → cmp b c ≤ 0 → cmp a c ≤ 0)
    (x : α) (l : List α) (hl : l.Pairwise (fun a b => cmp a b ≤ 0)) :
    (jsOrderedInsert cmp x l).Pairwise (fun a b => cmp a b ≤ 0) := by
  induction l with
  | nil => simp [jsOrderedInsert]
  | cons y t ih =>
    rcases List.pairwise_cons.1 hl with ⟨hy, ht⟩
    by_cases h : cmp x y ≤ 0
    · simp only [jsOrderedInsert, if_pos h]
      refine List.pairwise_cons.2 ⟨?_, hl⟩
      intro z hz
      rcases List.mem_cons.1 hz with rfl | hz
      · exact h
      · exact htrans x y z h (hy z hz)
    · simp only [jsOrderedInsert, if_neg h]
      refine List.pairwise_cons.2 ⟨?_, ih ht⟩
      intro z hz
      have hz' := (jsOrderedInsert_perm cmp x t).mem_iff.1 hz
      rcases List.mem_cons.1 hz' with rfl | hz'
      · rcases htot z y with h' | h'
        · exact absurd h' h
        · exact h'
      · exact hy z hz'

theorem jsSort_pairwise (cmp : α → α → ℚ)
    (htot : ∀ a b, cmp a b ≤ 0 ∨ cmp b a ≤ 0)
    (htrans : ∀ a b c, cmp a b ≤ 0 → cmp b c ≤ 0 → cmp a c ≤ 0)
    (l : List α) :
    (jsSort cmp l).Pairwise (fun a b => cmp a b ≤ 0) := by
  induction l with
  | nil => simp [jsSort]
  | cons x t ih => exact jsOrderedInsert_pairwise cmp htot htrans x (jsSort cmp t) ih

theorem filter_jsOrderedInsert (cmp : α → α → ℚ) (p : α → Bool)
    (hp : ∀ a b, p a = true → p b = true → cmp a b ≤ 0)
    (x : α) (l : List α) :
    (jsOrderedInsert cmp x l).filter p =
      if p x then x :: l.filter p else l.filter p := by
  induction l with
  | nil => cases hx : p x <;> simp [jsOrderedInsert, List.filter_cons, hx]
  | cons y t ih =>
    by_cases h : cmp x y ≤ 0
    · simp [jsOrderedInsert, if_pos h, List.filter_cons]
    · simp only [jsOrderedInsert, if_neg h, List.filter_cons]
      cases hx : p x with
      | true =>
        have hy : p y = false := by
          cases hpy : p y
          · rfl
          · exact absurd (hp x y hx hpy) h
        simp [hy, ih, hx]
      | false => simp [List.filter_cons, hx, ih]

theorem filter_jsSort (cmp : α → α → ℚ) (p : α → Bool)
    (hp : ∀ a b, p a = true → p b = true → cmp a b ≤ 0)
    (l : List α) :
    (jsSort cmp l).filter p = l.filter p := by
  induction l with
  | nil => rfl
  | cons x t ih =>
    show (jsOrderedInsert cmp x (jsSort cmp t)).filter p = (x :: t).filter p
    rw [filter_jsOrderedInsert cmp p hp x (jsSort cmp t), List.filter_cons, ih]

theorem jsSort_reverse_of_ne (c c' : α → α → ℚ)
    (hanti : ∀ a b, c a b = -(c b a))
    (htrans : ∀ a b d, c a b ≤ 0 → c b d ≤ 0 → c a d ≤ 0)
    (hc' : ∀ a b, c' a b = -(c a b))
    (l : List α) (hne : l.Pairwise (fun a b => c a b ≠ 0)) :
    jsSort c' l = (jsSort c l).reverse := by
  have htot : ∀ a b, c a b ≤ 0 ∨ c b a ≤ 0 := by
    intro a b
    rcases le_total (c a b) 0 with h | h
    · exact Or.inl h
    · refine Or.inr ?_
      rw [hanti b a]
      linarith
  have htot' : ∀ a b, c' a b ≤ 0 ∨ c' b a ≤ 0 := by
    intro a b
    rw [hc' a b, hc' b a, hanti b a]
    rcases le_total (c a b) 0 with h | h
    · right; linarith
    · left; linarith
  have htrans' : ∀ a b d, c' a b ≤ 0 → c' b d ≤ 0 → c' a d ≤ 0 := by
    intro a b d h1 h2
    rw [hc' a b] at h1
    rw [hc' b d] at h2
    rw [hc' a d]
    have hba : c b a ≤ 0 := by rw [hanti b a]; linarith
    have hdb : c d b ≤ 0 := by rw [hanti d b]; linarith
    have := htrans d b a hdb hba
    rw [hanti d a] at this
    linarith
  have hsymm : ∀ {x y : α}, c x y ≠ 0 → c y x ≠ 0 := by
    intro x y h h0
    exact h (by rw [hanti x y, h0, neg_zero])
  have hneA : (jsSort c' l).Pairwise (fun a b => c a b ≠ 0) :=
    ((jsSort_perm c' l).pairwise_iff hsymm).2 hne
  have hneD : (jsSort c l).Pairwise (fun a b => c a b ≠ 0) :=
    ((jsSort_perm c l).pairwise_iff hsymm).2 hne
  have hsortA : (jsSort c' l).Pairwise (fun a b => 0 < c a b) := by
    refine ((jsSort_pairwise c' htot' htrans' l).and hneA).imp ?_
    intro a b hab
    have h1 : c' a b ≤ 0 := hab.1
    rw [hc' a b] at h1
    rcases lt_or_eq_of_le (by linarith : (0:ℚ) ≤ c a b) with h | h
    · exact h
    · exact absurd h.symm hab.2
  have hsortD : (jsSort c l).Pairwise (fun a b => 0 < c b a) := by
    refine ((jsSort_pairwise c htot htrans l).and hneD).imp ?_
    intro a b hab
    have h1 : c a b ≤ 0 := hab.1
    have h2 : c a b < 0 := lt_of_le_of_ne h1 hab.2
    rw [hanti a b] at h2
    linarith
  have hsortDrev : ((jsSort c l).reverse).Pairwise (fun a b => 0 < c a b) := by
    rw [List.pairwise_reverse]
    exact hsortD
  haveI : IsAntisymm α (fun a b => 0 < c a b) := ⟨by
    intro a b h1 h2
    exfalso
    rw [hanti a b] at h1
    linarith⟩
  have hperm : (jsSort c' l).Perm ((jsSort c l).reverse) :=
    ((jsSort_perm c' l).trans (jsSort_perm c l).symm).trans (List.reverse_perm _).symm
  exact List.eq_of_perm_of_sorted hperm hsortA hsortDrev

end StableSortLemmas

theorem strCmpQ_anti (a b : String) : strCmpQ a b = -(strCmpQ b a) := by
  unfold strCmpQ
  rcases lt_trichotomy a b with h | h | h
  · rw [if_pos h, if_neg (lt_asymm h), if_pos h]
  · subst h
    simp [lt_irrefl]
  · rw [if_neg (lt_asymm h), if_pos h, if_pos h]
    norm_num

theorem strCmpQ_nonpos (a b : String) : strCmpQ a b ≤ 0 ↔ a ≤ b := by
  unfold strCmpQ
  rcases lt_trichotomy a b with h | h | h
  · rw [if_pos h]
    simp [h.le]
  · subst h
    simp [lt_irrefl]
  · rw [if_neg (lt_asymm h), if_pos h]
    simp [not_le.2 h]

theorem jsCmp_anti (sortBy : String) (a b : TradingPair) :
    jsCmp sortBy a b = -(jsCmp sortBy b a) := by
  unfold jsCmp
  split_ifs <;> first | ring1 | exact strCmpQ_anti a.name b.name

theorem jsCmp_nonpos_trans (sortBy : String) (a b d : TradingPair) :
    jsCmp sortBy a b ≤ 0 → jsCmp sortBy b d ≤ 0 → jsCmp sortBy a d ≤ 0 := by
  unfold jsCmp
  split_ifs <;> intro h1 h2 <;>
    first
    | linarith
    | (rw [strCmpQ_nonpos] at h1 h2 ⊢; exact le_trans h1 h2)

theorem applySearch_sublist (f : Filters) (pairs : List TradingPair) :
    (applySearch f pairs).Sublist pairs := by
  unfold applySearch
  split
  · exact List.filter_sublist _
  · exact List.Sublist.refl _

theorem applyLiquidity_sublist (f : Filters) (pairs : List TradingPair) :
    (applyLiquidity f pairs).Sublist pairs := by
  unfold applyLiquidity
  split
  · exact List.filter_sublist _
  · exact List.Sublist.refl _

theorem applyCategory_sublist (f : Filters) (pairs : List TradingPair) :
    (applyCategory f pairs).Sublist pairs := by
  unfold applyCategory
  split
  · exact List.filter_sublist _
  · exact List.Sublist.refl _

theorem applyFilters_sublist (f : Filters) (pairs : List TradingPair) :
    (applyFilters f pairs).Sublist pairs :=
  ((applyCategory_sublist f _).trans (applyLiquidity_sublist f _)).trans
    (applySearch_sublist f pairs)

/-- Pool validity as claim C5 words it: truthy pool and token addresses, both
token addresses resolving in the asset map. -/
def validPool (assets : List Asset) (pool : Pool) : Bool :=
  (strTruthy pool.token0Address && strTruthy pool.token1Address && strTruthy pool.address) &&
  (lookupAsset assets (pool.token0Address.getD "")).isSome &&
  (lookupAsset assets (pool.token1Address.getD "")).isSome

theorem mkTradingPair_isSome (assets : List Asset) (pool : Pool) :
    (mkTradingPair assets pool).isSome = validPool assets pool := by
  unfold mkTradingPair validPool
  by_cases hb : (strTruthy pool.token0Address && strTruthy pool.token1Address &&
      strTruthy pool.address) = true
  · rw [if_pos hb]
    cases h0 : lookupAsset assets (pool.token0Address.getD "") <;>
      cases h1 : lookupAsset assets (pool.token1Address.getD "") <;>
        simp [hb, h0, h1]
  · rw [if_neg hb]
    have hb' : (strTruthy pool.token0Address && strTruthy pool.token1Address &&
        strTruthy pool.address) = false := by
      cases hx : (strTruthy pool.token0Address && strTruthy pool.token1Address &&
          strTruthy pool.address)
      · rfl
      · exact absurd hx hb
    simp [hb']

theorem mem_calculateTradingPairs {assets : List Asset} {pools : List Pool}
    {pr : TradingPair} :
    pr ∈ calculateTradingPairs assets pools ↔
      ∃ pool ∈ pools, mkTradingPair assets pool = some pr := by
  unfold calculateTradingPairs
  rw [(jsSort_perm _ _).mem_iff, List.mem_filterMap]

theorem mkTradingPair_fields {assets : List Asset} {pool : Pool} {pr : TradingPair}
    (h : mkTradingPair assets pool = some pr) :
    pr.reserves.token0 = qval pool.reserve0 ∧
    pr.reserves.token1 = qval pool.reserve1 ∧
    pr.price =
      (if 0 < pr.token0.usdPrice ∧ 0 < pr.token1.usdPrice then
        pr.token1.usdPrice / pr.token0.usdPrice
      else if 0 < pr.reserves.token0 then
        pr.reserves.token1 / pr.reserves.token0 *
          (10 : ℚ) ^ (jsDecimals pr.token0.decimals - jsDecimals pr.token1.decimals)
      else 0) := by
  unfold mkTradingPair at h
  by_cases hb : (strTruthy pool.token0Address && strTruthy pool.token1Address &&
      strTruthy pool.address) = true
  · rw [if_pos hb] at h
    cases h0 : lookupAsset assets (pool.token0Address.getD "") with
    | none => rw [h0] at h; exact Option.noConfusion h
    | some t0 =>
      cases h1 : lookupAsset assets (pool.token1Address.getD "") with
      | none => rw [h0, h1] at h; exact Option.noConfusion h
      | some t1 =>
        rw [h0, h1] at h
        injection h with h2
        subst h2
        exact ⟨rfl, rfl, rfl⟩
  · rw [if_neg hb] at h
    exact Option.noConfusion h

theorem length_filterMap_eq_filter {β γ : Type*} (f : β → Option γ) (p : β → Bool)
    (h : ∀ b, (f b).isSome = p b) (l : List β) :
    (l.filterMap f).length = (l.filter p).length := by
  induction l with
  | nil => rfl
  | cons b t ih =>
    rw [List.filterMap_cons, List.filter_cons]
    cases hb : f b with
    | none =>
      have hp : p b = false := by rw [← h b, hb]; rfl
      simp [hp, ih]
    | some c =>
      have hp : p b = true := by rw [← h b, hb]; rfl
      simp [hp, ih]

/-- A pair whose token names contain the stablecoin keyword "usdt" while its
symbols and names contain none of the keywords the code tests against the
respective concatenation. -/
def c1Pair : TradingPair :=
  { id := "pool0"
    name := "AAA/BBB"
    token0 := { symbol := "AAA", name := "usdt token", address := some "a0",
                decimals := some 9, usdPrice := 0 }
    token1 := { symbol := "BBB", name := "xyz", address := some "a1",
                decimals := some 9, usdPrice := 0 }
    price := 0
    formattedPrice := "0.00"
    liquidity := 0
    volume24h := 0
    apy := 0
    poolAddress := "pool0"
    reserves := { token0 := 0, token1 := 0 }
    popularityIndex := 0 }

/-- C1 fails as stated: on `c1Pair` the glossary keyword "usdt" is a
substring of the names concatenation, so the claim predicts a stablecoins
match, but the classifier tests "usdt" only against the symbols
concatenation and returns false. -/
theorem stonfi_C1_counterexample :
    categoryMatches "stablecoins" c1Pair = false ∧
    specCategoryMatches "stablecoins" c1Pair = true := by
  exact ⟨by decide, by decide⟩

/-- C1 (corrected): for each non-`all` category the classifier returns true
iff one of the category's symbol-keywords is a substring of the lower-cased
symbols concatenation, or one of its name-keywords is a substring of the
lower-cased names concatenation; the keyword tables are split per
concatenation, not shared. -/
theorem stonfi_C1 (pair : TradingPair) :
    categoryMatches "stablecoins" pair = splitCategoryMatches "stablecoins" pair ∧
    categoryMatches "meme" pair = splitCategoryMatches "meme" pair ∧
    categoryMatches "defi" pair = splitCategoryMatches "defi" pair := by
  refine ⟨?_, ?_, ?_⟩ <;>
    simp [categoryMatches, splitCategoryMatches, symbolKeywords, nameKeywords,
      List.any_cons, List.any_nil, Bool.or_assoc]

/-- Assets for the C2 counterexample: a resolvable pair with no stablecoin
keyword anywhere. -/
def c2Assets : List Asset :=
  [{ contractAddress := some "T0", symbol := "BTC", displayName := some "Bitcoin",
     decimals := some 9, dexUsdPrice := some 1 },
   { contractAddress := some "T1", symbol := "ETH", displayName := some "Ethereum",
     decimals := some 9, dexUsdPrice := some 2 }]

/-- One pool joining the two C2 assets. -/
def c2Pools : List Pool :=
  [{ address := some "P1", token0Address := some "T0", token1Address := some "T1",
     reserve0 := some 1, reserve1 := some 1, lpTotalSupplyUsd := some 1000,
     lpTotalSupply := none, volume24hUsd := none, apy1D := none,
     popularityIndex := none }]

/-- A query whose category filter excludes the only derived pair. -/
def c2Query : QueryParams :=
  { page := none, limit := none, search := none, sortBy := none,
    sortOrder := none, minLiquidity := none, category := some "stablecoins" }

/-- C2 fails as stated: with the stablecoins category filter the handler's
response carries `totalPairs = 1` (the derived collection) while the
filtered collection is empty. -/
theorem stonfi_C2_counterexample :
    (handler c2Assets c2Pools c2Query).totalPairs ≠
      (filterAndSortPairs (calculateTradingPairs c2Assets c2Pools)
        (handler c2Assets c2Pools c2Query).filters).length :=
  of_decide_eq_true (by with_unfolding_all rfl)

/-- C2 (corrected): `totalPairs` in the assembled response equals the size of
the derived collection before any filtering (`pairs.length`), not the
post-filter count. -/
theorem stonfi_C2 (assets : List Asset) (pools : List Pool) (q : QueryParams) :
    (handler assets pools q).totalPairs = (calculateTradingPairs assets pools).length :=
  rfl

/-- Scenario B assets: TON and STON, 9 decimals, no `dexUsdPrice`. -/
def c3Assets : List Asset :=
  [{ contractAddress := some "T0", symbol := "TON", displayName := none,
     decimals := some 9, dexUsdPrice := none },
   { contractAddress := some "T1", symbol := "STON", displayName := none,
     decimals := some 9, dexUsdPrice := none }]

/-- Scenario B pool: reserves 100 and 500, liquidity 1000. -/
def c3Pools : List Pool :=
  [{ address := some "P1", token0Address := some "T0", token1Address := some "T1",
     reserve0 := some 100, reserve1 := some 500, lpTotalSupplyUsd := some 1000,
     lpTotalSupply := none, volume24hUsd := none, apy1D := none,
     popularityIndex := none }]

/-- C3 fails as stated: the derived pair does not have
`formattedPrice = "5"`; `formatPrice` renders a price below 100 with two
fractional digits. -/
theorem stonfi_C3_counterexample :
    (calculateTradingPairs c3Assets c3Pools).map (fun p => (p.price, p.formattedPrice)) ≠
      [(5, "5")] :=
  of_decide_eq_true (by with_unfolding_all rfl)

/-- C3 (corrected): Scenario B yields exactly one pair with
`price = reserve1 / reserve0 * 10 ^ (9 - 9) = 5` and
`formattedPrice = "5.00"` (two fractional digits, per the `price < 100`
formatting rule). -/
theorem stonfi_C3 :
    (calculateTradingPairs c3Assets c3Pools).map (fun p => (p.price, p.formattedPrice)) =
      [(5, "5.00")] := by
  with_unfolding_all rfl

/-- Assets for the C4 counterexample (no USD prices, so the reserve branch
computes the price). -/
def c4Assets : List Asset :=
  [{ contractAddress := some "T0", symbol := "TON", displayName := none,
     decimals := some 9, dexUsdPrice := none },
   { contractAddress := some "T1", symbol := "STON", displayName := none,
     decimals := some 9, dexUsdPrice := none }]

/-- A pool whose `reserve1` is the decimal string "-500". -/
def c4Pools : List Pool :=
  [{ address := some "P1", token0Address := some "T0", token1Address := some "T1",
     reserve0 := some 100, reserve1 := some (-500), lpTotalSupplyUsd := some 1000,
     lpTotalSupply := none, volume24hUsd := none, apy1D := none,
     popularityIndex := none }]

/-- C4 fails as stated: with the decimal string "-500" as `reserve1` the
derived pair has price `-500 / 100 * 10 ^ 0 = -5 < 0`. -/
theorem stonfi_C4_counterexample :
    (calculateTradingPairs c4Assets c4Pools).all (fun p => decide (0 ≤ p.price)) = false := by
  with_unfolding_all rfl

/-- C4 (corrected): every derived pair has a non-negative price provided the
parsed `reserve1` values are non-negative (negative decimal strings break
non-negativity, see the counterexample); and unconditionally the price is 0
whenever neither both USD prices are strictly positive nor the parsed
`reserve0` is strictly positive. -/
theorem stonfi_C4 :
    (∀ (assets : List Asset) (pools : List Pool),
        (∀ pool ∈ pools, 0 ≤ qval pool.reserve1) →
        ∀ pr ∈ calculateTradingPairs assets pools, 0 ≤ pr.price)
    ∧ (∀ (assets : List Asset) (pools : List Pool) (pr : TradingPair),
        pr ∈ calculateTradingPairs assets pools →
        ¬(0 < pr.token0.usdPrice ∧ 0 < pr.token1.usdPrice) →
        ¬(0 < pr.reserves.token0) → pr.price = 0) := by
  constructor
  · intro assets pools hres pr hpr
    obtain ⟨pool, hpool, hmk⟩ := mem_calculateTradingPairs.1 hpr
    obtain ⟨hr0, hr1, hprice⟩ := mkTradingPair_fields hmk
    rw [hprice]
    split_ifs with h1 h2
    · exact (div_pos h1.2 h1.1).le
    · have hres1 : 0 ≤ pr.reserves.token1 := by
        rw [hr1]
        exact hres pool hpool
      have h10 : (0:ℚ) <
          (10 : ℚ) ^ (jsDecimals pr.token0.decimals - jsDecimals pr.token1.decimals) :=
        zpow_pos (by norm_num) _
      exact mul_nonneg (div_nonneg hres1 h2.le) h10.le
    · exact le_refl 0
  · intro assets pools pr hpr h1 h2
    obtain ⟨pool, hpool, hmk⟩ := mem_calculateTradingPairs.1 hpr
    obtain ⟨hr0, hr1, hprice⟩ := mkTradingPair_fields hmk
    rw [hprice, if_neg h1, if_neg h2]

/-- Witness for C4 at Scenario B's concrete input, whose parsed reserves are
non-negative. -/
theorem stonfi_C4_witness :
    (calculateTradingPairs c3Assets c3Pools).all (fun p => decide (0 ≤ p.price)) = true := by
  rw [List.all_eq_true]
  intro pr hpr
  refine decide_eq_true (stonfi_C4.1 c3Assets c3Pools ?_ pr hpr)
  intro pool hpool
  simp only [c3Pools, List.mem_singleton] at hpool
  subst hpool
  norm_num [qval]

/-- C5 (confirmed): derivation produces, up to the final canonical sort,
exactly the pools whose pool and token addresses are truthy and whose two
token addresses resolve in the asset map — one pair each — and every other
pool contributes nothing; `mkTradingPair` is total, so no malformed record
can raise. -/
theorem stonfi_C5 (assets : List Asset) (pools : List Pool) :
    (calculateTradingPairs assets pools).Perm (pools.filterMap (mkTradingPair assets))
    ∧ (∀ pool : Pool, (mkTradingPair assets pool).isSome = validPool assets pool)
    ∧ (calculateTradingPairs assets pools).length =
        (pools.filter (validPool assets)).length := by
  refine ⟨jsSort_perm _ _, mkTradingPair_isSome assets, ?_⟩
  show (jsSort canonCmp (pools.filterMap (mkTradingPair assets))).length = _
  rw [(jsSort_perm _ _).length_eq]
  exact length_filterMap_eq_filter _ _ (mkTradingPair_isSome assets) pools

/-- A minimal pair with the given id and liquidity, for sort tests. -/
def simplePair (pid : String) (liq : ℚ) : TradingPair :=
  { id := pid
    name := pid
    token0 := { symbol := "A", name := "A", address := some "a",
                decimals := some 9, usdPrice := 0 }
    token1 := { symbol := "B", name := "B", address := some "b",
                decimals := some 9, usdPrice := 0 }
    price := 0
    formattedPrice := "0.00"
    liquidity := liq
    volume24h := 0
    apy := 0
    poolAddress := pid
    reserves := { token0 := 0, token1 := 0 }
    popularityIndex := 0 }

/-- C6 fails as stated: with two distinct pairs of equal liquidity the stable
sort leaves both orders equal to the input order, so the ascending result is
not the reverse of the descending one. -/
theorem stonfi_C6_counterexample :
    filterAndSortPairs [simplePair "a" 1, simplePair "b" 1]
        { search := "", sortBy := "liquidity", sortOrder := "asc",
          minLiquidity := 0, category := "all" } ≠
      (filterAndSortPairs [simplePair "a" 1, simplePair "b" 1]
        { search := "", sortBy := "liquidity", sortOrder := "desc",
          minLiquidity := 0, category := "all" }).reverse :=
  of_decide_eq_true (by with_unfolding_all rfl)

/-- C6 (corrected): reversing `sortOrder` yields the exact reverse sequence
whenever the chosen sort key has no ties on the collection (the comparator
never returns 0 between two list elements); under the default
liquidity-descending sort the liquidity values are non-increasing and the
sort is stable (pairs of equal liquidity keep their relative input order). -/
theorem stonfi_C6 :
    (∀ (pairs : List TradingPair) (search sortBy : String) (minLiquidity : ℚ)
        (category : String),
        pairs.Pairwise (fun a b => jsCmp sortBy a b ≠ 0) →
        filterAndSortPairs pairs
            { search := search, sortBy := sortBy, sortOrder := "asc",
              minLiquidity := minLiquidity, category := category } =
          (filterAndSortPairs pairs
            { search := search, sortBy := sortBy, sortOrder := "desc",
              minLiquidity := minLiquidity, category := category }).reverse)
    ∧ (∀ pairs : List TradingPair,
        (filterAndSortPairs pairs
          { search := "", sortBy := "liquidity", sortOrder := "desc",
            minLiquidity := 0, category := "all" }).Pairwise
          (fun a b => b.liquidity ≤ a.liquidity))
    ∧ (∀ (pairs : List TradingPair) (q : ℚ),
        (filterAndSortPairs pairs
          { search := "", sortBy := "liquidity", sortOrder := "desc",
            minLiquidity := 0, category := "all" }).filter
            (fun p => decide (p.liquidity = q)) =
          pairs.filter (fun p => decide (p.liquidity = q))) := by
  refine ⟨?_, ?_, ?_⟩
  · intro pairs search sortBy minLiquidity category hne
    have hcD : ∀ a b, sortCmp
        { search := search, sortBy := sortBy, sortOrder := "desc",
          minLiquidity := minLiquidity, category := category } a b =
        jsCmp sortBy a b := by
      intro a b
      simp [sortCmp]
    have hcA : ∀ a b, sortCmp
        { search := search, sortBy := sortBy, sortOrder := "asc",
          minLiquidity := minLiquidity, category := category } a b =
        -(sortCmp
          { search := search, sortBy := sortBy, sortOrder := "desc",
            minLiquidity := minLiquidity, category := category } a b) := by
      intro a b
      simp [sortCmp]
    have hanti : ∀ a b, sortCmp
        { search := search, sortBy := sortBy, sortOrder := "desc",
          minLiquidity := minLiquidity, category := category } a b =
        -(sortCmp
          { search := search, sortBy := sortBy, sortOrder := "desc",
            minLiquidity := minLiquidity, category := category } b a) := by
      intro a b
      rw [hcD, hcD]
      exact jsCmp_anti sortBy a b
    have htrans : ∀ a b d, sortCmp
        { search := search, sortBy := sortBy, sortOrder := "desc",
          minLiquidity := minLiquidity, category := category } a b ≤ 0 →
        sortCmp
          { search := search, sortBy := sortBy, sortOrder := "desc",
            minLiquidity := minLiquidity, category := category } b d ≤ 0 →
        sortCmp
          { search := search, sortBy := sortBy, sortOrder := "desc",
            minLiquidity := minLiquidity, category := category } a d ≤ 0 := by
      intro a b d h1 h2
      rw [hcD] at h1 h2 ⊢
      exact jsCmp_nonpos_trans sortBy a b d h1 h2
    have hne' : (applyFilters
        { search := search, sortBy := sortBy, sortOrder := "desc",
          minLiquidity := minLiquidity, category := category } pairs).Pairwise
        (fun a b => sortCmp
          { search := search, sortBy := sortBy, sortOrder := "desc",
            minLiquidity := minLiquidity, category := category } a b ≠ 0) := by
      refine List.Pairwise.imp ?_ (List.Pairwise.sublist (applyFilters_sublist _ _) hne)
      intro a b h
      rw [hcD a b]
      exact h
    show jsSort _ (applyFilters _ pairs) = (jsSort _ (applyFilters _ pairs)).reverse
    have happ : applyFilters
        { search := search, sortBy := sortBy, sortOrder := "asc",
          minLiquidity := minLiquidity, category := category } pairs =
        applyFilters
          { search := search, sortBy := sortBy, sortOrder := "desc",
            minLiquidity := minLiquidity, category := category } pairs := rfl
    rw [happ]
    exact jsSort_reverse_of_ne _ _ hanti htrans hcA _ hne'
  · intro pairs
    have hcD : ∀ a b : TradingPair, sortCmp
        { search := "", sortBy := "liquidity", sortOrder := "desc",
          minLiquidity := 0, category := "all" } a b =
        b.liquidity - a.liquidity := by
      intro a b
      simp [sortCmp, jsCmp]
    have htot : ∀ a b : TradingPair, sortCmp
        { search := "", sortBy := "liquidity", sortOrder := "desc",
          minLiquidity := 0, category := "all" } a b ≤ 0 ∨ sortCmp
        { search := "", sortBy := "liquidity", sortOrder := "desc",
          minLiquidity := 0, category := "all" } b a ≤ 0 := by
      intro a b
      rw [hcD, hcD]
      rcases le_total a.liquidity b.liquidity with h | h
      · right; linarith
      · left; linarith
    have htrans : ∀ a b d : TradingPair, sortCmp
        { search := "", sortBy := "liquidity", sortOrder := "desc",
          minLiquidity := 0, category := "all" } a b ≤ 0 → sortCmp
        { search := "", sortBy := "liquidity", sortOrder := "desc",
          minLiquidity := 0, category := "all" } b d ≤ 0 → sortCmp
        { search := "", sortBy := "liquidity", sortOrder := "desc",
          minLiquidity := 0, category := "all" } a d ≤ 0 := by
      intro a b d h1 h2
      rw [hcD] at h1 h2 ⊢
      linarith
    have := jsSort_pairwise _ htot htrans (applyFilters
      { search := "", sortBy := "liquidity", sortOrder := "desc",
        minLiquidity := 0, category := "all" } pairs)
    refine List.Pairwise.imp ?_ this
    intro a b h
    rw [hcD] at h
    linarith
  · intro pairs q
    have happ : applyFilters
        { search := "", sortBy := "liquidity", sortOrder := "desc",
          minLiquidity := 0, category := "all" } pairs = pairs := by
      with_unfolding_all rfl
    show (jsSort _ (applyFilters _ pairs)).filter _ = _
    rw [happ]
    refine filter_jsSort _ _ ?_ pairs
    intro a b ha hb
    have ha' : a.liquidity = q := of_decide_eq_true ha
    have hb' : b.liquidity = q := of_decide_eq_true hb
    have : sortCmp
        { search := "", sortBy := "liquidity", sortOrder := "desc",
          minLiquidity := 0, category := "all" } a b = b.liquidity - a.liquidity := by
      simp [sortCmp, jsCmp]
    rw [this, ha', hb']
    linarith

/-- Witness for C6 at two pairs with distinct liquidities. -/
theorem stonfi_C6_witness :
    filterAndSortPairs [simplePair "c" 1, simplePair "d" 2]
        { search := "", sortBy := "liquidity", sortOrder := "asc",
          minLiquidity := 0, category := "all" } =
      (filterAndSortPairs [simplePair "c" 1, simplePair "d" 2]
        { search := "", sortBy := "liquidity", sortOrder := "desc",
          minLiquidity := 0, category := "all" }).reverse :=
  stonfi_C6.1 [simplePair "c" 1, simplePair "d" 2] "" "liquidity" 0 "all"
    (of_decide_eq_true (by with_unfolding_all rfl))

theorem qCeil_div_bounds (a b : ℤ) (hb : 0 < b) :
    a ≤ qCeil ((a : ℚ) / (b : ℚ)) * b ∧ (qCeil ((a : ℚ) / (b : ℚ)) - 1) * b < a := by
  have hbq : (0 : ℚ) < (b : ℚ) := by exact_mod_cast hb
  have hfl : ((Rat.floor (-((a : ℚ) / (b : ℚ))) : ℤ) : ℚ) ≤ -((a : ℚ) / (b : ℚ)) :=
    Rat.le_floor.mp (le_refl _)
  have hfl2 : -((a : ℚ) / (b : ℚ)) < ((Rat.floor (-((a : ℚ) / (b : ℚ))) : ℤ) : ℚ) + 1 := by
    by_contra hcon
    push_neg at hcon
    have h2 : Rat.floor (-((a : ℚ) / (b : ℚ))) + 1 ≤ Rat.floor (-((a : ℚ) / (b : ℚ))) :=
      Rat.le_floor.mpr (by push_cast; linarith)
    omega
  constructor
  · have h1 : (a : ℚ) / (b : ℚ) ≤ ((qCeil ((a : ℚ) / (b : ℚ)) : ℤ) : ℚ) := by
      unfold qCeil
      push_cast
      linarith
    exact_mod_cast (div_le_iff₀ hbq).mp h1
  · have h2 : ((qCeil ((a : ℚ) / (b : ℚ)) - 1 : ℤ) : ℚ) < (a : ℚ) / (b : ℚ) := by
      unfold qCeil
      push_cast
      linarith
    exact_mod_cast (lt_div_iff₀ hbq).mp h2

/-- C7 (confirmed): for `page ≥ 1` and `limit ≥ 1`, `paginateResults` slices
`items[(page-1)*limit : (page-1)*limit + limit]`, whose length is
`min limit (max 0 (totalItems - (page-1)*limit))`; `totalPages` is the
ceiling of `totalItems / limit` (characterized by its two bounds);
`hasNextPage = (page < totalPages)`; `hasPrevPage = (page > 1)`; and a page
beyond `totalPages` yields empty data rather than an error. -/
theorem stonfi_C7 {α : Type*} (l : List α) (page limit : ℤ)
    (hp : 1 ≤ page) (hl : 1 ≤ limit) :
    (paginateResults l page limit).data =
        (l.drop ((page - 1) * limit).toNat).take limit.toNat
    ∧ ((paginateResults l page limit).data.length : ℤ) =
        min limit (max 0 ((l.length : ℤ) - (page - 1) * limit))
    ∧ (l.length : ℤ) ≤ (paginateResults l page limit).pagination.totalPages * limit
    ∧ ((paginateResults l page limit).pagination.totalPages - 1) * limit < (l.length : ℤ)
    ∧ (paginateResults l page limit).pagination.hasNextPage =
        decide (page < (paginateResults l page limit).pagination.totalPages)
    ∧ (paginateResults l page limit).pagination.hasPrevPage = decide (1 < page)
    ∧ ((paginateResults l page limit).pagination.totalPages < page →
        (paginateResults l page limit).data = []) := by
  obtain ⟨htp1, htp2⟩ := qCeil_div_bounds (l.length : ℤ) limit (by omega)
  have hst : 0 ≤ (page - 1) * limit := mul_nonneg (by omega) (by omega)
  have hdata : (paginateResults l page limit).data =
      (l.drop ((page - 1) * limit).toNat).take limit.toNat := by
    show jsSlice l ((page - 1) * limit) ((page - 1) * limit + limit) = _
    unfold jsSlice
    dsimp only
    rw [if_neg (by omega : ¬ (page - 1) * limit < 0),
      if_neg (by omega : ¬ (page - 1) * limit + limit < 0)]
    rcases le_or_lt ((l.length : ℤ)) ((page - 1) * limit) with hge | hlt
    · have h1 : min ((page - 1) * limit) ((l.length : ℤ)) = ((l.length : ℤ)) :=
        min_eq_right hge
      rw [h1]
      have h2 : l.drop ((l.length : ℤ)).toNat = [] :=
        List.drop_eq_nil_of_le (by omega)
      have h3 : l.drop ((page - 1) * limit).toNat = [] :=
        List.drop_eq_nil_of_le (by omega)
      rw [h2, h3, List.take_nil, List.take_nil]
    · have h1 : min ((page - 1) * limit) ((l.length : ℤ)) = (page - 1) * limit :=
        min_eq_left hlt.le
      rw [h1]
      apply List.take_eq_take.mpr
      rw [List.length_drop]
      omega
  have htotalPages : (paginateResults l page limit).pagination.totalPages =
      qCeil (((l.length : ℤ) : ℚ) / (limit : ℚ)) := rfl
  refine ⟨hdata, ?_, ?_, ?_, rfl, rfl, ?_⟩
  · rw [hdata, List.length_take, List.length_drop]
    omega
  · rw [htotalPages]
    exact htp1
  · rw [htotalPages]
    exact htp2
  · intro hbeyond
    rw [htotalPages] at hbeyond
    rw [hdata]
    have hmul : qCeil (((l.length : ℤ) : ℚ) / (limit : ℚ)) * limit ≤ (page - 1) * limit :=
      mul_le_mul_of_nonneg_right (by omega) (by omega)
    have hempty : l.drop ((page - 1) * limit).toNat = [] :=
      List.drop_eq_nil_of_le (by omega)
    rw [hempty, List.take_nil]

/-- Witness for C7: the third page of 120 items at 50 per page holds the last
20 items, with `totalPages = 3`, `hasNextPage = false`, `hasPrevPage = true`. -/
theorem stonfi_C7_witness :
    (paginateResults (List.range 120) 3 50).data =
      ((List.range 120).drop (((3 : ℤ) - 1) * 50).toNat).take (50 : ℤ).toNat := by
  exact (stonfi_C7 (List.range 120) 3 50 (by decide) (by decide)).1

/-- C9 (confirmed): with `limit ≥ 1`, page 0 always yields empty data, while
a negative page can return a non-empty window taken from the end of the list
through the negative-index semantics of `Array.prototype.slice` — so a page
below 1 is not simply an empty prefix page. -/
theorem stonfi_C9 :
    (∀ (α : Type) (l : List α) (limit : ℤ), 1 ≤ limit →
        (paginateResults l 0 limit).data = [])
    ∧ (paginateResults ([1, 2, 3, 4, 5, 6, 7, 8, 9, 10] : List ℤ) (-1) 3).data =
        [5, 6, 7] := by
  constructor
  · intro α l limit hl
    show jsSlice l (((0 : ℤ) - 1) * limit) (((0 : ℤ) - 1) * limit + limit) = []
    unfold jsSlice
    dsimp only
    rw [if_pos (by omega : ((0 : ℤ) - 1) * limit < 0),
      if_neg (by omega : ¬ ((0 : ℤ) - 1) * limit + limit < 0)]
    have h0 : min (((0 : ℤ) - 1) * limit + limit) ((l.length : ℤ)) -
        max ((l.length : ℤ) + ((0 : ℤ) - 1) * limit) 0 ≤ 0 := by
      omega
    rw [show (min (((0 : ℤ) - 1) * limit + limit) ((l.length : ℤ)) -
        max ((l.length : ℤ) + ((0 : ℤ) - 1) * limit) 0).toNat = 0 by omega]
    exact List.take_zero _
  · with_unfolding_all rfl

/-- Witness for C9 at a concrete page-0 request. -/
theorem stonfi_C9_witness :
    (paginateResults ([7, 8, 9] : List ℤ) 0 2).data = [] :=
  stonfi_C9.1 ℤ [7, 8, 9] 2 (by decide)

/-- C8 (confirmed): at the handler's query-parameter boundary a parsed value
of 0 falls back to the default exactly as a parse failure does — the whole
response is the one computed with the parameter absent; page "0" becomes 1
and limit "0" becomes 50 — while any nonzero parsed value (negative values
included) passes through unchanged into the pipeline. -/
theorem stonfi_C8 (assets : List Asset) (pools : List Pool) (q : QueryParams)
    (s : String) (v : ℤ) :
    (q.page = some s → parseIntJs s = some 0 →
        handler assets pools q = handler assets pools { q with page := none })
    ∧ (q.limit = some s → parseIntJs s = some 0 →
        handler assets pools q = handler assets pools { q with limit := none })
    ∧ (q.page = some "0" → (handler assets pools q).pagination.currentPage = 1)
    ∧ (q.limit = some "0" → (handler assets pools q).pagination.itemsPerPage = 50)
    ∧ (q.page = some s → parseIntJs s = some v → v ≠ 0 →
        (handler assets pools q).pagination.currentPage = v)
    ∧ (q.limit = some s → parseIntJs s = some v → v ≠ 0 →
        (handler assets pools q).pagination.itemsPerPage = v) := by
  refine ⟨?_, ?_, ?_, ?_, ?_, ?_⟩
  · intro hpage hparse
    unfold handler
    rw [hpage]
    simp [hparse, jsOrInt]
  · intro hlimit hparse
    unfold handler
    rw [hlimit]
    simp [hparse, jsOrInt]
  · intro hpage
    show jsOrInt (q.page.bind parseIntJs) 1 = 1
    rw [hpage]
    decide
  · intro hlimit
    show jsOrInt (q.limit.bind parseIntJs) 50 = 50
    rw [hlimit]
    decide
  · intro hpage hparse hv
    show jsOrInt (q.page.bind parseIntJs) 1 = v
    rw [hpage]
    show jsOrInt (parseIntJs s) 1 = v
    rw [hparse]
    show (if v = 0 then 1 else v) = v
    rw [if_neg hv]
  · intro hlimit hparse hv
    show jsOrInt (q.limit.bind parseIntJs) 50 = v
    rw [hlimit]
    show jsOrInt (parseIntJs s) 50 = v
    rw [hparse]
    show (if v = 0 then 50 else v) = v
    rw [if_neg hv]

/-- A query with page "-2" and limit "-5". -/
def c8Query : QueryParams :=
  { page := some "-2", limit := some "-5", search := none, sortBy := none,
    sortOrder := none, minLiquidity := none, category := none }

/-- A query with page "0" and limit "0". -/
def c8QueryZero : QueryParams :=
  { page := some "0", limit := some "0", search := none, sortBy := none,
    sortOrder := none, minLiquidity := none, category := none }

/-- Witness for C8: page "0" and limit "0" take the defaults, page "-2" and
limit "-5" pass through negative. -/
theorem stonfi_C8_witness :
    (handler [] [] c8QueryZero).pagination.currentPage = 1 ∧
    (handler [] [] c8QueryZero).pagination.itemsPerPage = 50 ∧
    (handler [] [] c8Query).pagination.currentPage = -2 ∧
    (handler [] [] c8Query).pagination.itemsPerPage = -5 :=
  ⟨(stonfi_C8 [] [] c8QueryZero "0" 0).2.2.1 rfl,
   (stonfi_C8 [] [] c8QueryZero "0" 0).2.2.2.1 rfl,
   (stonfi_C8 [] [] c8Query "-2" (-2)).2.2.2.2.1 rfl (by decide) (by decide),
   (stonfi_C8 [] [] c8Query "-5" (-5)).2.2.2.2.2 rfl (by decide) (by decide)⟩

theorem lookupAsset_truthy (assets : List Asset) (key : String) (b : Asset)
    (h : lookupAsset assets key = some b) : strTruthy b.contractAddress = true := by
  induction assets with
  | nil => exact Option.noConfusion h
  | cons a rest ih =>
    unfold lookupAsset at h
    dsimp only at h
    by_cases hl : (lookupAsset rest key).isSome = true
    · rw [if_pos hl] at h
      exact ih h
    · rw [if_neg hl] at h
      by_cases hc : (strTruthy a.contractAddress && (a.contractAddress == some key)) = true
      · rw [if_pos hc] at h
        injection h with h2
        subst h2
        exact ((Bool.and_eq_true _ _).mp hc).1
      · rw [if_neg hc] at h
        exact Option.noConfusion h

theorem lookupAsset_empty (assets : List Asset) : lookupAsset assets "" = none := by
  induction assets with
  | nil => rfl
  | cons a rest ih =>
    unfold lookupAsset
    dsimp only
    rw [ih]
    rw [if_neg (by simp)]
    rw [if_neg ?_]
    intro hc
    rcases (Bool.and_eq_true _ _).mp hc with ⟨h1, h2⟩
    have h3 : a.contractAddress = some "" := eq_of_beq h2
    rw [h3] at h1
    exact absurd h1 (by decide)

/-- C10 (confirmed): an asset whose `contractAddress` is absent or empty is
omitted from the asset map (the empty key resolves to nothing, and no key
resolves to that asset), and any pool whose token address equals that falsy
address yields no trading pair, however complete the asset record is. -/
theorem stonfi_C10 :
    (∀ assets : List Asset, lookupAsset assets "" = none)
    ∧ (∀ (assets : List Asset) (a : Asset), a ∈ assets →
        strTruthy a.contractAddress = false →
        ∀ key : String, lookupAsset assets key ≠ some a)
    ∧ (∀ (assets : List Asset) (pool : Pool) (a : Asset),
        strTruthy a.contractAddress = false →
        (pool.token0Address = a.contractAddress ∨
          pool.token1Address = a.contractAddress) →
        mkTradingPair assets pool = none) := by
  refine ⟨lookupAsset_empty, ?_, ?_⟩
  · intro assets a _ hfalsy key hlook
    have htrue := lookupAsset_truthy assets key a hlook
    rw [hfalsy] at htrue
    exact Bool.noConfusion htrue
  · intro assets pool a hfalsy href
    have hcond : (strTruthy pool.token0Address && strTruthy pool.token1Address &&
        strTruthy pool.address) = false := by
      rcases href with h0 | h1
      · rw [h0, hfalsy]
        simp
      · rw [h1, hfalsy]
        simp
    unfold mkTradingPair
    rw [if_neg (by rw [hcond]; simp)]

/-- An otherwise complete asset whose contract address is the empty string. -/
def c10Asset : Asset :=
  { contractAddress := some "", symbol := "TON", displayName := some "Toncoin",
    decimals := some 9, dexUsdPrice := some 5 }

/-- A pool whose token0 address is the same empty string. -/
def c10Pool : Pool :=
  { address := some "P1", token0Address := some "", token1Address := some "T1",
    reserve0 := some 1, reserve1 := some 1, lpTotalSupplyUsd := none,
    lpTotalSupply := none, volume24hUsd := none, apy1D := none,
    popularityIndex := none }

/-- Witness for C10 at the empty-address asset and the pool referencing it. -/
theorem stonfi_C10_witness :
    lookupAsset [c10Asset] "" = none ∧
    lookupAsset [c10Asset] "T0" ≠ some c10Asset ∧
    mkTradingPair [c10Asset] c10Pool = none :=
  ⟨stonfi_C10.1 [c10Asset],
   stonfi_C10.2.1 [c10Asset] c10Asset (List.mem_singleton.mpr rfl) rfl "T0",
   stonfi_C10.2.2 [c10Asset] c10Pool c10Asset rfl (Or.inl rfl)⟩

end StonFi
